import Mathlib

/-!
Verification of the message-processing core of the `growatt_server` proxy
(a transparent man-in-the-middle proxy for the Growatt v6 solar-inverter
telemetry protocol), as a shallow embedding in Lean.

Bytes are modelled as `Nat` (the source operates on `u8`; every operation
used here — XOR, comparisons, big-endian assembly — agrees with the `u8`
semantics on values below 256, and XOR of two values below 256 stays below
256). Fallible Rust code is modelled with `Option`: a Rust `panic!`
(out-of-bounds slice index, `unwrap` of a failed conversion) and a returned
`Err` are both embedded as `none`; where the distinction matters (the
connection handlers of `server.rs`) a dedicated outcome type separates the
two. Wall-clock timestamps (`Local::now()`) are not modelled: no claim
depends on them, and they are the only impure input of the decoders.
-/

namespace Growatt

/-! ## Codec (`src/utils.rs`) -/

/-- ASCII bytes of the default keystream string `"Growatt"`
(`mask.unwrap_or("Growatt").as_bytes()` in `unscramble_data`). -/
def growattMask : List Nat := "Growatt".data.map Char.toNat

/-- The scrambling loop of `unscramble_data`:
`for (i, j) in (8..ndecdata).zip((0..mask.len()).cycle())`
XORs the byte at position `i` with `mask[j]`. Position `k` of the body
(counting from the loop entry, with starting mask index `j`) is XORed with
`mask[(j + k) % mask.length]`. -/
def xorMask (m : List Nat) : Nat → List Nat → List Nat
  | _, [] => []
  | j, b :: rest => (b ^^^ m.getD (j % m.length) 0) :: xorMask m (j + 1) rest

/-- Embedding of `utils::unscramble_data(data, mask)`.
`data.get(..8)` yields `None` — an error (`Data received too short`) — when
the input has fewer than 8 bytes; nothing is produced in that case. The
first 8 bytes are copied verbatim, the rest is XORed with the cycled mask.
A `Some("")` mask would make the Rust `zip` empty (the cycle of an empty
iterator yields nothing), dropping the body; the `isEmpty` test reproduces
that corner. The server always passes `None`, i.e. the `"Growatt"` mask. -/
def unscramble_data (data : List Nat) (mask : Option (List Nat)) : Option (List Nat) :=
  let m := mask.getD growattMask
  if 8 ≤ data.length then
    some (data.take 8 ++ (if m.isEmpty then [] else xorMask m 0 (data.drop 8)))
  else
    none

theorem xorMask_length (m : List Nat) (j : Nat) (xs : List Nat) :
    (xorMask m j xs).length = xs.length := by
  induction xs generalizing j with
  | nil => rfl
  | cons b rest ih => simp [xorMask, ih]

theorem xorMask_xorMask (m : List Nat) (j : Nat) (xs : List Nat) :
    xorMask m j (xorMask m j xs) = xs := by
  induction xs generalizing j with
  | nil => rfl
  | cons b rest ih => simp [xorMask, ih, Nat.xor_cancel_right]

theorem xorMask_getD (m : List Nat) (j : Nat) (xs : List Nat) (k : Nat)
    (hk : k < xs.length) :
    (xorMask m j xs).getD k 0 = xs.getD k 0 ^^^ m.getD ((j + k) % m.length) 0 := by
  induction xs generalizing j k with
  | nil => simp at hk
  | cons b rest ih =>
    cases k with
    | zero => simp [xorMask]
    | succ k =>
      have hk2 : k < rest.length := by simpa using hk
      have h2 := ih (j + 1) k hk2
      have hj : j + 1 + k = j + (k + 1) := by omega
      rw [hj] at h2
      simpa [xorMask] using h2

theorem unscramble_data_eq (b : List Nat) (h : 8 ≤ b.length) :
    unscramble_data b none = some (b.take 8 ++ xorMask growattMask 0 (b.drop 8)) := by
  simp [unscramble_data, h, growattMask]

theorem length_take_eight (b : List Nat) (h : 8 ≤ b.length) :
    (b.take 8).length = 8 := by
  simp [List.length_take]
  omega

/-- C3: applying `unscramble_data` (with the default `"Growatt"` mask) twice
to any byte sequence of length at least 8 returns the original sequence:
the XOR transform is an involution and the 8-byte header is copied
verbatim both times. -/
theorem unscramble_data_involution (b : List Nat) (h : 8 ≤ b.length) :
    (unscramble_data b none).bind (fun u => unscramble_data u none) = some b := by
  rw [unscramble_data_eq b h, Option.some_bind']
  have hlen8 : (b.take 8).length = 8 := length_take_eight b h
  have hlen : (b.take 8 ++ xorMask growattMask 0 (b.drop 8)).length = b.length := by
    simp [List.length_append, xorMask_length, List.length_take, List.length_drop]
    omega
  rw [unscramble_data_eq _ (by omega)]
  rw [List.take_left' hlen8, List.drop_left' hlen8, xorMask_xorMask,
    List.take_append_drop]

/-- Closed instance of `unscramble_data_involution` at a concrete 9-byte input. -/
theorem unscramble_data_involution_witness :
    (unscramble_data [0, 1, 2, 3, 4, 5, 6, 7, 200] none).bind
      (fun u => unscramble_data u none) = some [0, 1, 2, 3, 4, 5, 6, 7, 200] :=
  unscramble_data_involution [0, 1, 2, 3, 4, 5, 6, 7, 200] (by decide)

/-- C4: on any input of length at least 8, `unscramble_data` (default mask)
succeeds; the output has the same length as the input, its first 8 bytes are
the first 8 bytes of the input, and every byte at index `i ≥ 8` is the input
byte XORed with `"Growatt"[(i - 8) mod 7]`. -/
theorem unscramble_data_spec (b : List Nat) (h : 8 ≤ b.length) :
    ∃ u, unscramble_data b none = some u ∧
      u.length = b.length ∧
      u.take 8 = b.take 8 ∧
      ∀ i, 8 ≤ i → i < b.length →
        u.getD i 0 = b.getD i 0 ^^^ growattMask.getD ((i - 8) % 7) 0 := by
  refine ⟨b.take 8 ++ xorMask growattMask 0 (b.drop 8),
    unscramble_data_eq b h, ?_, ?_, ?_⟩
  · simp [List.length_append, xorMask_length, List.length_take, List.length_drop]
    omega
  · exact List.take_left' (length_take_eight b h)
  · intro i h8 hi
    have hlen8 : (b.take 8).length = 8 := length_take_eight b h
    have hik : i = 8 + (i - 8) := by omega
    rw [hik]
    rw [List.getD_eq_getElem?_getD, List.getElem?_append_right (by omega),
      ← List.getD_eq_getElem?_getD]
    have hklt : i - 8 < (b.drop 8).length := by
      simp [List.length_drop]; omega
    rw [hlen8, Nat.add_sub_cancel_left,
      xorMask_getD growattMask 0 (b.drop 8) (i - 8) hklt]
    have hb : (b.drop 8).getD (i - 8) 0 = b.getD (8 + (i - 8)) 0 := by
      simp [List.getD_eq_getElem?_getD, List.getElem?_drop]
    rw [hb, Nat.zero_add]
    have hm : growattMask.length = 7 := rfl
    rw [hm]

/-- Closed instance of `unscramble_data_spec` at a concrete 10-byte input. -/
theorem unscramble_data_spec_witness :
    ∃ u, unscramble_data [9, 8, 7, 6, 5, 4, 3, 2, 1, 0] none = some u ∧
      u.length = ([9, 8, 7, 6, 5, 4, 3, 2, 1, 0] : List Nat).length ∧
      u.take 8 = ([9, 8, 7, 6, 5, 4, 3, 2, 1, 0] : List Nat).take 8 ∧
      ∀ i, 8 ≤ i → i < ([9, 8, 7, 6, 5, 4, 3, 2, 1, 0] : List Nat).length →
        u.getD i 0 = ([9, 8, 7, 6, 5, 4, 3, 2, 1, 0] : List Nat).getD i 0 ^^^
          growattMask.getD ((i - 8) % 7) 0 :=
  unscramble_data_spec [9, 8, 7, 6, 5, 4, 3, 2, 1, 0] (by decide)

/-- C7: `unscramble_data` (default mask) fails exactly on inputs shorter
than 8 bytes — the `SHORT_FRAME` error — and succeeds on every input of at
least 8 bytes. On failure no partial output is produced: the function
returns `none` (the Rust function returns `Err` before any body byte is
emitted). -/
theorem unscramble_data_short_frame (b : List Nat) :
    unscramble_data b none = none ↔ b.length < 8 := by
  by_cases h : 8 ≤ b.length
  · simp [unscramble_data, h]
  · simp [unscramble_data, h]
    omega

/-! ## Hex utilities (`src/utils.rs`) -/

/-- Embedding of `utils::hex_bytes_to_ascii`: each byte becomes the character with the
same code point (`*b as char`, Latin-1 widening). -/
def hex_bytes_to_ascii (hex_bytes : List Nat) : String :=
  String.mk (hex_bytes.map Char.ofNat)

/-- Value of one hex digit as accepted by `u8::from_str_radix(_, 16)`:
`0`-`9`, `a`-`f`, `A`-`F`. -/
def hexDigitVal (c : Char) : Option Nat :=
  let n := c.toNat
  if 48 ≤ n ∧ n ≤ 57 then some (n - 48)
  else if 97 ≤ n ∧ n ≤ 102 then some (n - 87)
  else if 65 ≤ n ∧ n ≤ 70 then some (n - 55)
  else none

/-- Embedding of `u8::from_str_radix(s, 16)` on the 1- or 2-character chunks that
`hex_to_bytes` produces: an optional leading `+` (a `-` is rejected for an
unsigned target, and so is a sign with no digit after it), then one hex
digit per remaining character. Overflow is impossible with at most two
digits. -/
def parseHexChunk : List Char → Option Nat
  | [c] => hexDigitVal c
  | [c1, c2] =>
    if c1 = '+' then hexDigitVal c2
    else do
      let a ← hexDigitVal c1
      let b ← hexDigitVal c2
      some (16 * a + b)
  | _ => none

/-- Embedding of `hex.as_bytes().chunks(2)`, at character level: a trailing lone
character forms a chunk of its own. -/
def chunks2 : List Char → List (List Char)
  | [] => []
  | [c] => [[c]]
  | c1 :: c2 :: rest => [c1, c2] :: chunks2 rest

/-- The `map`/`collect` of `hex_to_bytes`: every chunk must parse, a failing
chunk makes the whole conversion panic (`unwrap`). -/
def parseChunks : List (List Char) → Option (List Nat)
  | [] => some []
  | ch :: rest =>
    match parseHexChunk ch, parseChunks rest with
    | some v, some vs => some (v :: vs)
    | _, _ => none

/-- Embedding of `utils::hex_to_bytes`. The Rust function returns `Vec<u8>` with no error
path: a chunk rejected by `from_str_radix` (or a chunk that is not valid
UTF-8) makes the `unwrap` panic, embedded as `none`. The model works on the
character sequence of the string; a character outside ASCII always causes
the panic in Rust (none of its bytes is a hex digit or a sign, and a split
multi-byte character fails `from_utf8`), and always yields `none` here, so
the byte view and the character view agree on every input. -/
def hex_to_bytes (hex : List Char) : Option (List Nat) :=
  parseChunks (chunks2 hex)

/-- Uppercase hex digit character for a value below 16 (spec side, used to
state the round-trip property of §8 of the spec). -/
def hexDigitChar (n : Nat) : Char :=
  if n < 10 then Char.ofNat (48 + n) else Char.ofNat (55 + n)

/-- Two-character hex rendering of one byte (spec side). -/
def byteToHex (b : Nat) : List Char :=
  [hexDigitChar (b / 16), hexDigitChar (b % 16)]

/-- Even-length hex string of a byte sequence (the `hex_bytes_to_hex`
inverse of §8 of the spec). -/
def bytesToHex : List Nat → List Char
  | [] => []
  | b :: rest => byteToHex b ++ bytesToHex rest

theorem parseHexChunk_byteToHex (b : Nat) (hb : b < 256) :
    parseHexChunk (byteToHex b) = some b := by
  have hd : ∀ d, d < 16 → hexDigitVal (hexDigitChar d) = some d ∧ hexDigitChar d ≠ '+' := by
    decide
  have h1 := hd (b / 16) (by omega)
  have h2 := hd (b % 16) (Nat.mod_lt b (by omega))
  simp only [byteToHex, parseHexChunk, h1.1, h2.1, if_neg h1.2, Option.bind_eq_bind,
    Option.some_bind]
  rw [Nat.div_add_mod b 16]

theorem chunks2_bytesToHex_append (bs : List Nat) (t : List Char) :
    chunks2 (bytesToHex bs ++ t) = bs.map byteToHex ++ chunks2 t := by
  induction bs with
  | nil => rfl
  | cons b rest ih => simp [bytesToHex, byteToHex, chunks2, ih]

theorem parseChunks_bytes_append (bs : List Nat) (h : ∀ b ∈ bs, b < 256)
    (t : List (List Char)) :
    parseChunks (bs.map byteToHex ++ t) = (parseChunks t).map (fun r => bs ++ r) := by
  induction bs with
  | nil =>
    cases ht : parseChunks t <;> simp [ht]
  | cons b rest ih =>
    have hb : b < 256 := h b (List.mem_cons_self b rest)
    have hrest : ∀ x ∈ rest, x < 256 := fun x hx => h x (List.mem_cons_of_mem b hx)
    simp only [List.map_cons, List.cons_append, parseChunks,
      parseHexChunk_byteToHex b hb, List.append_eq]
    rw [ih hrest]
    cases ht : parseChunks t <;> simp

/-- C8 counterexample: the claim says `hex_to_bytes` fails on an odd-length
string of hex digits; on the one-character string `"F"` it instead succeeds
and parses the lone digit as the byte 15. -/
theorem hex_to_bytes_odd_succeeds :
    hex_to_bytes "F".data = some [15] ∧
      (some [15] : Option (List Nat)) ≠ none := by
  constructor
  · rfl
  · simp

/-- C8 amended: `hex_to_bytes` parses every even-length string of hex
digits into the corresponding byte sequence (round trip with the canonical
hex rendering); an odd-length string does not fail — the trailing lone hex
digit is parsed as a byte of its own; a non-hex-digit character makes the
function panic (its `unwrap` of the failed `from_str_radix`), embedded as
`none`, rather than return a recoverable `BAD_HEX` error. -/
theorem hex_to_bytes_amended :
    (∀ bs : List Nat, (∀ b ∈ bs, b < 256) →
      hex_to_bytes (bytesToHex bs) = some bs) ∧
    (∀ (bs : List Nat) (c : Char) (v : Nat), (∀ b ∈ bs, b < 256) →
      hexDigitVal c = some v →
      hex_to_bytes (bytesToHex bs ++ [c]) = some (bs ++ [v])) ∧
    hex_to_bytes "0G".data = none := by
  refine ⟨?_, ?_, rfl⟩
  · intro bs h
    have := chunks2_bytesToHex_append bs []
    simp only [List.append_nil] at this
    simp [hex_to_bytes, this, parseChunks_bytes_append bs h, parseChunks]
  · intro bs c v h hc
    simp [hex_to_bytes, chunks2_bytesToHex_append bs [c],
      parseChunks_bytes_append bs h, chunks2, parseChunks, parseHexChunk, hc]

/-- Closed instance of `hex_to_bytes_amended` at the byte sequence
`[171, 0]` and at the odd string `"AB0F7"`. -/
theorem hex_to_bytes_amended_witness :
    hex_to_bytes (bytesToHex [171, 0]) = some [171, 0] ∧
      hex_to_bytes (bytesToHex [171, 15] ++ ['7']) = some [171, 15, 7] :=
  ⟨hex_to_bytes_amended.1 [171, 0] (by decide),
    hex_to_bytes_amended.2.1 [171, 15] '7' 7 (by decide) (by decide)⟩

/-! ## Message model (`src/data/mod.rs`, `src/data/v6/mod.rs`,
`src/data/v6/message_type.rs`) -/

/-- Embedding of `data::Datatype`: the four fragment types of the field schema. -/
inductive Datatype where
  | String
  | Date
  | Integer
  | Float
deriving DecidableEq

/-- Embedding of `data::v6::GrowattV6EnergyFragment`: one schema record (name, offset
into the payload body, length in bytes, type, optional divisor). The `u32`
fields are modelled as `Nat`; every use converts them with `as usize`. -/
structure GrowattV6EnergyFragment where
  name : String
  offset : Nat
  bytes_len : Nat
  fragment_type : Datatype
  fraction : Option Nat
deriving DecidableEq

/-- Embedding of `data::v6::message_type::MessageType`. The `MeterData` variant is
required by `DataMessage::meter_data` and its test; it has no byte in the
`From<u8>` discriminator mapping (the spec records METER_DATA
classification as an open point). -/
inductive MessageType where
  | Data3
  | Data4
  | Ping
  | Configure
  | Identify
  | MeterData
  | Unknown
deriving DecidableEq

/-- Embedding of `impl From<u8> for MessageType`: the type byte at offset 7. -/
def MessageType.fromByte (b : Nat) : MessageType :=
  if b = 0x03 then .Data3
  else if b = 0x04 then .Data4
  else if b = 0x16 then .Ping
  else if b = 0x18 then .Configure
  else if b = 0x19 then .Identify
  else .Unknown

/-- Rust `char::is_alphanumeric` (Unicode categories L* and N*) restricted
to the code points 0–255 that `hex_bytes_to_ascii` can produce: ASCII
digits and letters, and the Latin-1 letters and numeric signs
(ª, ², ³, µ, ¹, º, ¼, ½, ¾, À–Ö, Ø–ö, ø–ÿ; × and ÷ are symbols). -/
def latin1IsAlphanumeric (c : Nat) : Bool :=
  (48 ≤ c && c ≤ 57) || (65 ≤ c && c ≤ 90) || (97 ≤ c && c ≤ 122) ||
  c == 0xAA || c == 0xB2 || c == 0xB3 || c == 0xB5 || c == 0xB9 || c == 0xBA ||
  c == 0xBC || c == 0xBD || c == 0xBE ||
  (0xC0 ≤ c && c ≤ 0xD6) || (0xD8 ≤ c && c ≤ 0xF6) || (0xF8 ≤ c && c ≤ 0xFF)

/-- Embedding of `data_message::DataMessage` without its `time` field (`Local::now()` at
decode time, the only impure input; no claim depends on it). The `data`
hash map is modelled as an insertion-ordered association list with unique
keys. -/
structure DataMessage where
  raw : List Nat
  header : List Nat
  data_type : MessageType
  data : List (String × String)
  serial_number : Option String
deriving DecidableEq

/-- Embedding of `HashMap::insert` on the association-list model: overwrite an existing
key in place, append a new one. The map length is the list length. -/
def insertKV (m : List (String × String)) (k v : String) : List (String × String) :=
  if m.any (fun p => p.1 == k) then
    m.map (fun p => if p.1 == k then (k, v) else p)
  else m ++ [(k, v)]

/-- Embedding of `HashMap::get` on the association-list model. -/
def lookupKV : List (String × String) → String → Option String
  | [], _ => none
  | p :: rest, k => if p.1 == k then some p.2 else lookupKV rest k

/-! ## Date and number rendering used by `DataMessage::data4` -/

/-- Proleptic-Gregorian leap year rule used by `chrono`. -/
def isLeapYear (y : Nat) : Bool :=
  (y % 4 == 0 && y % 100 != 0) || y % 400 == 0

/-- Days of a month, for the `from_ymd_opt` validity check. -/
def daysInMonth (y m : Nat) : Nat :=
  if m = 2 then (if isLeapYear y then 29 else 28)
  else if m = 4 ∨ m = 6 ∨ m = 9 ∨ m = 11 then 30
  else 31

/-- Validity of `NaiveDate::from_ymd_opt(y, m, d)` followed by
`and_hms_opt(hh, mi, ss)` for the components of a DATE fragment (the year
is `2000 + byte`, always inside chrono's supported range). -/
def validDateTime (y m d hh mi ss : Nat) : Bool :=
  1 ≤ m && m ≤ 12 && 1 ≤ d && d ≤ daysInMonth y m && hh < 24 && mi < 60 && ss < 60

/-- Two-digit zero-padded decimal. -/
def pad2 (n : Nat) : String :=
  if n < 10 then "0" ++ toString n else toString n

/-- Rendering of `NaiveDateTime::to_string`: `%Y-%m-%d %H:%M:%S` (the year here is in
2000..2255, so always four digits). -/
def formatDateTime (y m d hh mi ss : Nat) : String :=
  toString y ++ "-" ++ pad2 m ++ "-" ++ pad2 d ++ " " ++
    pad2 hh ++ ":" ++ pad2 mi ++ ":" ++ pad2 ss

/-- Embedding of `u32::from_be_bytes` on the zero-left-padded 4-byte slice: big-endian
value of the bytes. -/
def beBytesToNat (bs : List Nat) : Nat :=
  bs.foldl (fun a b => a * 256 + b) 0

/-- Exact decimal expansion of `r / d` (`r < d`), at most `fuel` digits. -/
def fracDigits : Nat → Nat → Nat → List Char
  | 0, _, _ => []
  | _ + 1, 0, _ => []
  | fuel + 1, r, d => Char.ofNat (48 + r * 10 / d) :: fracDigits fuel (r * 10 % d) d

/-- Rendering of `(value as f32) / (fraction.unwrap_or(1) as f32)` with
Rust's default `Display`. The shortest-round-trip decimal formatting of
`f32` (and its rounding of values above 2^24) is not reproduced digit for
digit — no claim depends on the rendered digits of a FLOAT fragment, only
on the branch never failing. The model renders the exact decimal expansion
of `value / divisor` to at most 10 fractional digits, a whole number with
no decimal point (as Rust does), and `"NaN"`/`"inf"` for a zero divisor as
Rust prints `0.0/0.0` and `x/0.0`. -/
def floatString (value divisor : Nat) : String :=
  if divisor = 0 then (if value = 0 then "NaN" else "inf")
  else
    let q := value / divisor
    let r := value % divisor
    if r = 0 then toString q
    else toString q ++ "." ++ String.mk (fracDigits 10 r divisor)

/-! ## Decoders (`src/data_message.rs`) -/

/-- Decoding of one schema fragment from the payload body inside
`DataMessage::data4`. `none` embeds a panic of the source: the slice
`&bytes[base_offset..end_offset]` with `end_offset` past the body; a DATE
slice shorter than 6 bytes (`slice[5]` out of bounds); an invalid date
(`unwrap` of a `None` from `from_ymd_opt`/`and_hms_opt`); or an
INTEGER/FLOAT slice longer than 4 bytes (the `4 - four_bytes.len()`
underflow and the failed `[u8; 4]` conversion `unwrap`). -/
def decodeFragment (body : List Nat) (f : GrowattV6EnergyFragment) : Option String :=
  let base := f.offset
  let endOffset := base + f.bytes_len
  if endOffset ≤ body.length then
    let slice := (body.drop base).take f.bytes_len
    match f.fragment_type with
    | .String =>
      some (String.mk ((hex_bytes_to_ascii slice).data.filter
        (fun c => latin1IsAlphanumeric c.toNat)))
    | .Date =>
      if 6 ≤ slice.length then
        let y := 2000 + slice.getD 0 0
        let mo := slice.getD 1 0
        let d := slice.getD 2 0
        let hh := slice.getD 3 0
        let mi := slice.getD 4 0
        let ss := slice.getD 5 0
        if validDateTime y mo d hh mi ss then some (formatDateTime y mo d hh mi ss)
        else none
      else none
    | .Integer =>
      if slice.length ≤ 4 then
        some (toString (beBytesToNat (List.replicate (4 - slice.length) 0 ++ slice)))
      else none
    | .Float =>
      if slice.length ≤ 4 then
        some (floatString (beBytesToNat (List.replicate (4 - slice.length) 0 ++ slice))
          (f.fraction.getD 1))
      else none
  else none

/-- One iteration of the fragment loop of `DataMessage::data4`: decode the
fragment, set the serial number when the fragment is a STRING named
`"Inverter SN"`, insert the stringified value under the fragment name. -/
def data4Step (body : List Nat) (st : List (String × String) × Option String)
    (f : GrowattV6EnergyFragment) : Option (List (String × String) × Option String) :=
  match decodeFragment body f with
  | none => none
  | some s =>
    let serial := if f.fragment_type = Datatype.String ∧ f.name = "Inverter SN"
      then some s else st.2
    some (insertKV st.1 f.name s, serial)

/-- Embedding of `DataMessage::data4`. The header is `bytes[0..=7]` (panics — `none` —
on fewer than 8 bytes); the payload body is `bytes[8..]`; the fragment
loop aborts the whole decode (a panic, `none`) on the first bad fragment.
The `raw` field of the result is the payload body, not the whole frame. -/
def data4 (inverter_fragments : List GrowattV6EnergyFragment) (bytes : List Nat) :
    Option DataMessage :=
  if 8 ≤ bytes.length then
    let header := bytes.take 8
    let body := bytes.drop 8
    match inverter_fragments.foldlM (data4Step body) ([], none) with
    | none => none
    | some st => some ⟨body, header, MessageType.Data4, st.1, st.2⟩
  else none

/-- The 40 fixed keys `METER_DATA_KEYS` of `DataMessage::meter_data`. -/
def METER_DATA_KEYS : List String := [
  "active_energy", "reactive_energy",
  "active_power_l1", "active_power_l2", "active_power_l3",
  "reactive_power_l1", "reactive_power_l2", "reactive_power_l3",
  "apparent_power_l1", "apparent_power_l2", "apparent_power_l3",
  "power_factor_l1", "power_factor_l2", "power_factor_l3",
  "voltage_l1", "voltage_l2", "voltage_l3",
  "current_l1", "current_l2", "current_l3",
  "active_power", "reactive_power", "apparent_power", "power_factor",
  "frequency", "posi_active_power", "reverse_active_power",
  "posi_reactive_power", "reverse_reactive_power", "apparent_energy",
  "total_active_energy_l1", "total_active_energy_l2", "total_active_energy_l3",
  "total_reactive_energy_l1", "total_reactive_energy_l2", "total_reactive_energy_l3",
  "total_energy", "l1_voltage_2", "l2_voltage_3", "l3_voltage_1"]

/-- Meter-frame body between header and CRC: `&bytes[8..(bytes.len() - 2)]`. -/
def meterBody (bytes : List Nat) : List Nat :=
  (bytes.take (bytes.length - 2)).drop 8

/-- Embedding of `str::split(',')` on the character sequence. -/
def splitOnComma : List Char → List (List Char)
  | [] => [[]]
  | c :: rest =>
    if c = ',' then [] :: splitOnComma rest
    else
      match splitOnComma rest with
      | [] => [[c]]
      | g :: gs => (c :: g) :: gs

/-- The value list of a meter frame: the ASCII section (body bytes from
offset 40 on), split on commas, stringified, empty tokens dropped. -/
def meterValues (bytes : List Nat) : List String :=
  ((splitOnComma (hex_bytes_to_ascii ((meterBody bytes).drop 40)).data).map
    String.mk).filter (fun s => !s.isEmpty)

/-- The key/value loop of `meter_data`: pair values with the fixed keys in
order; when the keys run out (more than 40 values) warn and break. -/
def meterInsert (keys : List String) (data : List (String × String)) :
    List String → List (String × String)
  | [] => data
  | v :: rest =>
    match keys with
    | [] => data
    | k :: krest => meterInsert krest (insertKV data k v) rest

/-- Embedding of `DataMessage::meter_data`. Every `none` embeds a panic of the source:
`bytes[0..=7]` on fewer than 8 bytes, `&bytes[8..(len - 2)]` when
`8 > len - 2`, `&bytes[0..30]` on a body shorter than 30 bytes, and
`&bytes[40..]` on a body shorter than 40 bytes. The Rust function has no
error return: its result is always `Ok(..)` when it does not panic. The
serial number is the alphanumeric filter of the first 30 body bytes; `raw`
is the whole original frame, header and CRC included. -/
def meter_data (original_bytes : List Nat) : Option DataMessage :=
  if 8 ≤ original_bytes.length then
    let header := original_bytes.take 8
    if 8 ≤ original_bytes.length - 2 then
      let body := meterBody original_bytes
      if 30 ≤ body.length then
        let serial := String.mk ((hex_bytes_to_ascii (body.take 30)).data.filter
          (fun c => latin1IsAlphanumeric c.toNat))
        if 40 ≤ body.length then
          some ⟨original_bytes, header, MessageType.MeterData,
            meterInsert METER_DATA_KEYS [] (meterValues original_bytes), some serial⟩
        else none
      else none
    else none
  else none

/-- Embedding of `DataMessage::placeholder`: header and type only, empty data, no
serial; `raw` is the whole input; `bytes[0..=7]` panics (`none`) on fewer
than 8 bytes. -/
def placeholder (bytes : List Nat) (message_type : MessageType) : Option DataMessage :=
  if 8 ≤ bytes.length then
    some ⟨bytes, bytes.take 8, message_type, [], none⟩
  else none

/-! ## Decoder theorems -/

/-- C10: `meter_data` panics (embedded as `none`) exactly on inputs shorter
than 50 bytes — the 8-byte header slice, the 2-byte CRC strip, the 30-byte
serial region and the skip to body offset 40 together require 50 bytes —
and succeeds on every input of at least 50 bytes; the source never returns
an error value. -/
theorem meter_data_none_iff (bytes : List Nat) :
    meter_data bytes = none ↔ bytes.length < 50 := by
  have hb : (meterBody bytes).length = bytes.length - 10 := by
    simp [meterBody]
    omega
  simp only [meter_data, hb]
  split_ifs with h1 h2 h3 h4 <;> simp <;> omega

/-- C9: the `raw` field of a `data4` result is the payload body only (the
input with its 8 header bytes dropped), while `meter_data` and
`placeholder` store the entire input frame in `raw`; the persistence layer
inserts `datamessage.raw` into `inverter_messages.raw` unchanged, so Data4
rows omit the 8-byte header and all other rows contain it. -/
theorem raw_field_header_stripping :
    (∀ frags bytes dm, data4 frags bytes = some dm → dm.raw = bytes.drop 8) ∧
    (∀ bytes dm, meter_data bytes = some dm → dm.raw = bytes) ∧
    (∀ bytes mt dm, placeholder bytes mt = some dm → dm.raw = bytes) := by
  refine ⟨?_, ?_, ?_⟩
  · intro frags bytes dm h
    by_cases hlen : 8 ≤ bytes.length
    · simp only [data4, if_pos hlen] at h
      cases hm : List.foldlM (data4Step (bytes.drop 8)) (([], none)) frags with
      | none => rw [hm] at h; exact Option.noConfusion h
      | some st =>
        rw [hm] at h
        injection h with h2
        subst h2
        rfl
    · simp only [data4, if_neg hlen] at h
      exact Option.noConfusion h
  · intro bytes dm h
    simp only [meter_data] at h
    split_ifs at h <;> try exact Option.noConfusion h
    injection h with h2
    subst h2
    rfl
  · intro bytes mt dm h
    simp only [placeholder] at h
    split_ifs at h <;> try exact Option.noConfusion h
    injection h with h2
    subst h2
    rfl

/-- Closed instance of `raw_field_header_stripping` at a concrete 8-byte
Data4 frame with an empty schema. -/
theorem raw_field_header_stripping_witness :
    (⟨[], [0, 0, 0, 0, 0, 0, 0, 0], MessageType.Data4, [], none⟩ : DataMessage).raw =
      ([0, 0, 0, 0, 0, 0, 0, 0] : List Nat).drop 8 :=
  raw_field_header_stripping.1 [] [0, 0, 0, 0, 0, 0, 0, 0]
    ⟨[], [0, 0, 0, 0, 0, 0, 0, 0], MessageType.Data4, [], none⟩ rfl

/-- C2: `DataMessage::data4` is not fragment-error-recoverable: a fragment
whose slice extends past the payload body makes the slice indexing panic,
and a DATE fragment with an out-of-range month makes the `unwrap` of
`from_ymd_opt` panic — in both cases the whole decode aborts (`none`) and
no `DataMessage` is produced, instead of the fragment being logged and
skipped. The first frame is 12 bytes (4-byte body) with a fragment at
offset 100; the second carries the date bytes `(23, 13, 1, 0, 0, 0)`,
month 13. -/
theorem data4_panics_on_bad_fragment :
    data4 [⟨"frag", 100, 4, Datatype.Integer, none⟩]
      [0, 1, 0, 6, 0, 4, 0, 4, 0, 0, 0, 0] = none ∧
    data4 [⟨"date", 0, 6, Datatype.Date, none⟩]
      [0, 1, 0, 6, 0, 6, 0, 4, 23, 13, 1, 0, 0, 0] = none := by
  constructor <;> rfl

theorem insertKV_fresh (m : List (String × String)) (k v : String)
    (h : m.any (fun p => p.1 == k) = false) :
    insertKV m k v = m ++ [(k, v)] := by
  simp [insertKV, h]

theorem meterInsert_append (values keys : List String)
    (data : List (String × String)) (hnd : keys.Nodup)
    (hfresh : ∀ k ∈ keys, data.any (fun p => p.1 == k) = false) :
    meterInsert keys data values = data ++ keys.zip values := by
  induction values generalizing keys data with
  | nil => cases keys <;> simp [meterInsert]
  | cons v rest ih =>
    cases keys with
    | nil => simp [meterInsert]
    | cons k krest =>
      have hk : data.any (fun p => p.1 == k) = false :=
        hfresh k (List.mem_cons_self k krest)
      have hnd2 : krest.Nodup := (List.nodup_cons.mp hnd).2
      have hkk : k ∉ krest := (List.nodup_cons.mp hnd).1
      have hfresh2 : ∀ k2 ∈ krest, (data ++ [(k, v)]).any (fun p => p.1 == k2) = false := by
        intro k2 hk2
        have hne : k ≠ k2 := fun he => hkk (he ▸ hk2)
        simp [List.any_append, hfresh k2 (List.mem_cons_of_mem k hk2), hne]
      calc meterInsert (k :: krest) data (v :: rest)
          = meterInsert krest (insertKV data k v) rest := rfl
        _ = meterInsert krest (data ++ [(k, v)]) rest := by rw [insertKV_fresh data k v hk]
        _ = (data ++ [(k, v)]) ++ krest.zip rest := ih krest (data ++ [(k, v)]) hnd2 hfresh2
        _ = data ++ (k :: krest).zip (v :: rest) := by simp

/-- The hex dump of the meter frame of `tests::test_meter_data` (S1 of the
spec). -/
def s1Hex : String :=
  "00010006011C221B4458443333333333333300000000000000000000000000000000000000000043170C140A370C00F232313535342E32392C333133362E32342C3435362E342C3533342E322C3933352E372C34312E302C2D33372E372C2D3131392E362C3435382E322C3533352E352C3934332E332C302E392C302E392C302E392C3233362E392C3233322E392C3233352E332C342E312C342E352C352E342C313931382E362C2D37342E372C2D37342E372C302E392C35302E302C313236312E362C32303239322E362C3632382E392C323530372E322C32313738312E322C3732312E382C3737322E392C313634312E332C3732312E382C3737322E392C313634312E332C32343639302E35342C3430362E372C3430382E302C3430362E302C3481"

/-- The S1 frame as bytes. -/
def s1Frame : List Nat := (hex_to_bytes s1Hex.data).getD []

set_option maxRecDepth 100000 in
set_option maxHeartbeats 1000000 in
/-- C6: `meter_data` pairs the comma-separated values of the ASCII body
(frame bytes 48 to len − 2, empty tokens dropped) in order with the fixed
40-key list, stopping at 40 when there are more values and inserting only
the available ones when there are fewer — so the field count is always
`min (number of values) 40`; on the S1 test frame the result has exactly
40 fields, serial number `"DXD3333333"` (alphanumeric filter of frame
bytes 8..38) and `power_factor = "0.9"`. -/
theorem meter_data_pairing_and_s1 :
    (∀ bytes dm, meter_data bytes = some dm →
      dm.data.length = min (meterValues bytes).length 40) ∧
    (meter_data s1Frame).map (fun dm =>
      (dm.data.length, dm.serial_number, lookupKV dm.data "power_factor")) =
      some (40, some "DXD3333333", some "0.9") := by
  constructor
  · intro bytes dm h
    simp only [meter_data] at h
    split_ifs at h <;> try exact Option.noConfusion h
    injection h with h2
    subst h2
    have hnd : METER_DATA_KEYS.Nodup := by decide
    have hfresh : ∀ k ∈ METER_DATA_KEYS,
        ([] : List (String × String)).any (fun p => p.1 == k) = false := by
      intro k _
      rfl
    show (meterInsert METER_DATA_KEYS [] (meterValues bytes)).length = _
    rw [meterInsert_append (meterValues bytes) METER_DATA_KEYS [] hnd hfresh]
    have hml : METER_DATA_KEYS.length = 40 := rfl
    simp [List.length_zip, hml, Nat.min_comm]
  · decide

/-- Closed instance of the pairing law of `meter_data_pairing_and_s1` at a
50-byte all-zero frame (no values, zero fields). -/
theorem meter_data_pairing_witness :
    (⟨List.replicate 50 0, List.replicate 8 0, MessageType.MeterData, [],
        some ""⟩ : DataMessage).data.length =
      min (meterValues (List.replicate 50 0)).length 40 :=
  meter_data_pairing_and_s1.1 (List.replicate 50 0)
    ⟨List.replicate 50 0, List.replicate 8 0, MessageType.MeterData, [], some ""⟩ rfl

/-! ## Connection handlers and copy loop (`src/server.rs`)

The database is an external collaborator; its insert outcomes are modelled
as oracles (`headerInsertOk`, `fieldInsertOk`, `remoteInsertOk`). -/

/-- Outcome of one `handle_*_data` call: `ok d` — the handler returned
`Ok(d)`, the bytes to forward; `err` — it returned an `anyhow` error (the
`?` on `unscramble_data`); `panicked` — the task panicked (a decoder panic,
or the `unwrap` on a failed `message_data` insert). -/
inductive HandlerOutcome where
  | ok (d : List Nat)
  | err
  | panicked
deriving DecidableEq

/-- Whether an outcome is `ok`. -/
def HandlerOutcome.isOk : HandlerOutcome → Bool
  | .ok _ => true
  | _ => false

/-- The `let message = match message_type { .. }` dispatch of
`Server::handle_inverter_data`. The `MeterData` arm is unreachable:
`MessageType.fromByte` never returns it (no type byte maps to meter
frames). -/
def decodeInverterMessage (inverter : List GrowattV6EnergyFragment)
    (bytes : List Nat) : Option DataMessage :=
  match MessageType.fromByte (bytes.getD 7 0) with
  | .Data3 => placeholder bytes .Data3
  | .Data4 => data4 inverter bytes
  | .Ping => placeholder bytes .Ping
  | .Configure => placeholder bytes .Configure
  | .Identify => placeholder bytes .Identify
  | .MeterData => placeholder bytes .MeterData
  | .Unknown => placeholder bytes .Unknown

/-- Embedding of `Server::handle_inverter_data`: unscramble (the `?` propagates the
SHORT_FRAME error), classify by byte 7, decode, insert the message header
(`inverter_messages`) — on failure log and return the original bytes —
then insert one `message_data` row per field, each with `.unwrap()`:
a failing field insert panics the task. On success the original `data`
is returned for relay, never the decoded bytes. -/
def handle_inverter_data (inverter : List GrowattV6EnergyFragment)
    (headerInsertOk : Bool) (fieldInsertOk : String → String → Bool)
    (data : List Nat) : HandlerOutcome :=
  match unscramble_data data none with
  | none => .err
  | some bytes =>
    match decodeInverterMessage inverter bytes with
    | none => .panicked
    | some datamessage =>
      if headerInsertOk then
        if datamessage.data.all (fun kv => fieldInsertOk kv.1 kv.2) then .ok data
        else .panicked
      else .ok data

/-- Embedding of `Server::handle_remote_data`: unscramble (the `?` propagates the
SHORT_FRAME error) and insert the unscrambled bytes into
`remote_messages`; a failed insert is logged and the original bytes are
returned all the same — both branches yield `Ok(data)`. -/
def handle_remote_data (remoteInsertOk : Bool) (data : List Nat) : HandlerOutcome :=
  match unscramble_data data none with
  | none => .err
  | some _bytes =>
    if remoteInsertOk then .ok data else .ok data

/-- Embedding of `Server::copy_with_abort` for one direction, with the socket reads
modelled as the list of chunk payloads delivered (a read error or the
cancellation of the token simply ends the list — in either case no further
chunk is processed; an empty chunk is EOF and breaks the loop). The result
is the list of chunks written to the opposite peer together with
`bytes_forwarded`; `none` embeds a handler panic, which aborts the session
task (writes performed before the panic are not tracked). A chunk whose
handler returns an error is NOT written: the loop logs the error and
`continue`s with the next read. -/
def copy_with_abort (handle_data : List Nat → HandlerOutcome) :
    List (List Nat) → Option (List (List Nat) × Nat)
  | [] => some ([], 0)
  | chunk :: rest =>
    if chunk.length = 0 then some ([], 0)
    else
      match handle_data chunk with
      | .err => copy_with_abort handle_data rest
      | .panicked => none
      | .ok d =>
        match copy_with_abort handle_data rest with
        | none => none
        | some p => some (d :: p.1, p.2 + chunk.length)

/-! ## Relay theorems -/

/-- C1 counterexample: on the 2-byte chunk `[0, 0]` (S2 of the spec)
`handle_inverter_data` fails with SHORT_FRAME and `copy_with_abort` skips
the `write_all` (`continue 'proxy`): nothing at all is written to the
opposite peer, where the claim demands the chunk be forwarded verbatim. -/
theorem copy_with_abort_drops_errored_chunk :
    copy_with_abort (handle_inverter_data [] true (fun _ _ => true)) [[0, 0]] =
      some ([], 0) ∧ ([] : List (List Nat)) ≠ [[0, 0]] := by
  constructor
  · rfl
  · simp

/-- C1 amended: on a session direction, exactly the chunks whose handler
returns `Ok` are written — verbatim (both handlers only ever return the
original chunk) and in order, up to the first EOF — and `bytes_forwarded`
counts exactly those chunks; a chunk for which `handle_inverter_data` or
`handle_remote_data` returns an error (for example a frame shorter than
8 bytes) is dropped: the loop logs the error and continues with the next
chunk without writing it. -/
theorem copy_with_abort_relay :
    (∀ (h : List Nat → HandlerOutcome) (chunks : List (List Nat))
      (res : List (List Nat) × Nat),
      copy_with_abort h chunks = some res →
      (∀ c d, h c = .ok d → d = c) →
      res.1 = (chunks.takeWhile (fun c => c.length != 0)).filter
          (fun c => (h c).isOk) ∧
      res.2 = (((chunks.takeWhile (fun c => c.length != 0)).filter
          (fun c => (h c).isOk)).map List.length).sum) ∧
    (∀ inv hOk fOk c d, handle_inverter_data inv hOk fOk c = .ok d → d = c) ∧
    (∀ rOk c d, handle_remote_data rOk c = .ok d → d = c) := by
  refine ⟨?_, ?_, ?_⟩
  · intro h chunks
    induction chunks with
    | nil =>
      intro res hres _
      simp only [copy_with_abort] at hres
      injection hres with h2
      subst h2
      simp
    | cons c rest ih =>
      intro res hres hfid
      by_cases hc : c.length = 0
      · simp only [copy_with_abort, if_pos hc] at hres
        injection hres with h2
        subst h2
        have hcb : (c.length != 0) = false := by simp [hc]
        simp [List.takeWhile, hcb]
      · simp only [copy_with_abort, if_neg hc] at hres
        have hcb : (c.length != 0) = true := by simp [hc]
        cases hh : h c with
        | err =>
          rw [hh] at hres
          have hres2 := ih res hres hfid
          have hok : (h c).isOk = false := by rw [hh]; rfl
          simpa [List.takeWhile_cons, List.filter_cons, hcb, hok] using hres2
        | panicked =>
          rw [hh] at hres
          exact Option.noConfusion hres
        | ok d =>
          rw [hh] at hres
          cases hrest : copy_with_abort h rest with
          | none => rw [hrest] at hres; exact Option.noConfusion hres
          | some p =>
            rw [hrest] at hres
            injection hres with h2
            subst h2
            have hp := ih p hrest hfid
            have hdc : d = c := hfid c d hh
            subst hdc
            have hok : (h d).isOk = true := by rw [hh]; rfl
            constructor
            · simp [List.takeWhile_cons, List.filter_cons, hcb, hok, hp.1]
            · simp [List.takeWhile_cons, List.filter_cons, hcb, hok, hp.2]
              omega
  · intro inv hOk fOk c d hcd
    simp only [handle_inverter_data] at hcd
    cases hu : unscramble_data c none with
    | none => rw [hu] at hcd; exact HandlerOutcome.noConfusion hcd
    | some bytes =>
      simp only [hu] at hcd
      cases hm : decodeInverterMessage inv bytes with
      | none => simp only [hm] at hcd; exact HandlerOutcome.noConfusion hcd
      | some dm =>
        simp only [hm] at hcd
        split_ifs at hcd <;>
          first
            | (injection hcd with h2; exact h2.symm)
            | exact HandlerOutcome.noConfusion hcd
  · intro rOk c d hcd
    simp only [handle_remote_data] at hcd
    cases hu : unscramble_data c none with
    | none => rw [hu] at hcd; exact HandlerOutcome.noConfusion hcd
    | some bytes =>
      simp only [hu] at hcd
      split_ifs at hcd <;> (injection hcd with h2; exact h2.symm)

/-- Closed instance of `copy_with_abort_relay` on the single 2-byte chunk
session: nothing is forwarded. -/
theorem copy_with_abort_relay_witness :
    (([], 0) : List (List Nat) × Nat).1 =
        (([[0, 0]] : List (List Nat)).takeWhile (fun c => c.length != 0)).filter
          (fun c => (handle_inverter_data [] true (fun _ _ => true) c).isOk) ∧
      (([], 0) : List (List Nat) × Nat).2 =
        (((([[0, 0]] : List (List Nat)).takeWhile (fun c => c.length != 0)).filter
          (fun c => (handle_inverter_data [] true (fun _ _ => true) c).isOk)).map
            List.length).sum :=
  copy_with_abort_relay.1 (handle_inverter_data [] true (fun _ _ => true))
    [[0, 0]] ([], 0) rfl
    (copy_with_abort_relay.2.1 [] true (fun _ _ => true))

/-- C5 counterexample: a Data4 frame that decodes to one field, with the
header insert succeeding and the `message_data` field insert failing,
makes `handle_inverter_data` panic (the `.unwrap()` on the insert result)
instead of logging the failure and continuing. -/
theorem handle_inverter_data_field_insert_panics :
    handle_inverter_data [⟨"f1", 0, 1, Datatype.Integer, none⟩] true
      (fun _ _ => false) [0, 1, 0, 1, 0, 1, 0, 4, 71] = .panicked := by
  rfl

/-- C5 amended: a failure of the `inverter_messages` header insert never
propagates past the decoder — whenever the handler succeeds under the
all-inserts-succeed oracle, it still returns the original bytes untouched
for relay when the header insert fails, whatever the field oracle does. A
failing `message_data` field-row insert, however, panics the session task
instead of being logged with relay continuing. -/
theorem handle_inverter_data_amended :
    (∀ inv fOk data,
      handle_inverter_data inv true (fun _ _ => true) data = .ok data →
      handle_inverter_data inv false fOk data = .ok data) ∧
    handle_inverter_data [⟨"f1", 0, 1, Datatype.Integer, none⟩] true
      (fun _ _ => false) [0, 1, 0, 1, 0, 1, 0, 4, 71] = .panicked := by
  constructor
  · intro inv fOk data hsucc
    simp only [handle_inverter_data] at hsucc ⊢
    cases hu : unscramble_data data none with
    | none => rw [hu] at hsucc; exact HandlerOutcome.noConfusion hsucc
    | some bytes =>
      simp only [hu] at hsucc ⊢
      cases hm : decodeInverterMessage inv bytes with
      | none => simp only [hm] at hsucc; exact HandlerOutcome.noConfusion hsucc
      | some dm => simp only [hm]; rfl
  · rfl

/-- Closed instance of `handle_inverter_data_amended` at a Ping frame with
a failing header insert: the bytes come back untouched. -/
theorem handle_inverter_data_amended_witness :
    handle_inverter_data [] false (fun _ _ => false) [0, 1, 0, 1, 0, 1, 0, 22] =
      HandlerOutcome.ok [0, 1, 0, 1, 0, 1, 0, 22] :=
  handle_inverter_data_amended.1 [] (fun _ _ => false) [0, 1, 0, 1, 0, 1, 0, 22] rfl

end Growatt
